import Mathlib

/-! Verification development for the matcha bind command (cmd/bind.go):
target-set resolution, the concurrent iOS build coordinator, the fat-binary
merge step, the Android sequential build loop, and working-directory cleanup. -/

/-- Helper for fields: walk the character list, accumulating the current token
and emitting it at each whitespace run or at the end. -/
def fieldsAux : List Char → List Char → List String
  | [], acc => if acc = [] then [] else [⟨acc⟩]
  | c :: cs, acc =>
    if c.isWhitespace then
      if acc = [] then fieldsAux cs [] else ⟨acc⟩ :: fieldsAux cs []
    else fieldsAux cs (acc ++ [c])

/-- Whitespace splitting of the target specification, following Go
strings.Fields: split around runs of whitespace and keep only the non-empty
tokens. -/
def fields (s : String) : List String := fieldsAux s.data []

/-- Boolean string-list membership, written by structural recursion so that
it evaluates inside the kernel. -/
def memS (x : String) : List String → Bool
  | [] => false
  | y :: ys => if x = y then true else memS x ys

/-- Boolean subset test between two string lists. -/
def subS (s t : List String) : Bool := s.all (fun x => memS x t)

/-- Insertion into the target set. The Go code writes a key into a map with an
empty struct value, so a key already present is not duplicated; the list order
is a representation detail of the embedding (Go map iteration order is
unspecified), and all theorems below treat the list as a set. -/
def tinsert (targets : List String) (x : String) : List String :=
  if memS x targets then targets else targets ++ [x]

/-- One iteration of the switch in ParseTargets (bind.go lines 27-48): insert
the entries for a recognised token into the accumulated target set; a token
matching no case leaves the set unchanged. -/
def addToken (targets : List String) (i : String) : List String :=
  if i = "android" then
    tinsert (tinsert (tinsert (tinsert (tinsert targets "android")
      "android/arm") "android/arm64") "android/386") "android/amd64"
  else if i = "android/arm" ∨ i = "android/arm64" ∨ i = "android/386" ∨ i = "android/amd64" then
    tinsert (tinsert targets "android") i
  else if i = "ios" then
    tinsert (tinsert (tinsert (tinsert (tinsert targets "ios")
      "ios/arm") "ios/arm64") "ios/386") "ios/amd64"
  else if i = "ios/arm" ∨ i = "ios/arm64" ∨ i = "ios/386" ∨ i = "ios/amd64" then
    tinsert (tinsert targets "ios") i
  else
    targets

/-- ParseTargets (bind.go lines 21-50): split the specification into fields,
fall back to ["android", "ios"] when there are none, and fold the switch over
the tokens into the target set. -/
def ParseTargets (a : String) : List String :=
  let targetsSlice := fields a
  let targetsSlice := if targetsSlice = [] then ["android", "ios"] else targetsSlice
  targetsSlice.foldl addToken []

/-- Set equality of two target sets: same members, ignoring order. -/
def sameTargets (s t : List String) : Prop := subS s t = true ∧ subS t s = true

instance (s t : List String) : Decidable (sameTargets s t) :=
  inferInstanceAs (Decidable (_ ∧ _))

/-- Helper for the spec-side token splitter: cut a character list at each
slash. -/
def splitSlash : List Char → List Char → List String
  | [], acc => [⟨acc⟩]
  | c :: cs, acc => if c = '/' then ⟨acc⟩ :: splitSlash cs [] else splitSlash cs (acc ++ [c])

/-- Split a string on slashes, as Go strings.Split does for this use. -/
def splitOnSlash (s : String) : List String := splitSlash s.data []

/-- Modelled from the spec (section 9 static configuration table): each known
platform with its known architectures. -/
def platformArchs : String → List String
  | "android" => ["arm", "arm64", "386", "amd64"]
  | "ios" => ["arm", "arm64", "386", "amd64"]
  | _ => []

/-- Modelled from the spec: the two known platform families. -/
def knownPlatforms : List String := ["android", "ios"]

/-- Modelled from the spec (section 4.1): a bare platform token yields the
platform marker plus every known architecture for it; a fully qualified token
yields the marker plus exactly that architecture; any other token yields
nothing. -/
def specExpandToken (t : String) : List String :=
  if memS t knownPlatforms then
    t :: (platformArchs t).map (fun a => t ++ "/" ++ a)
  else
    match splitOnSlash t with
    | [p, a] => if memS p knownPlatforms ∧ memS a (platformArchs p) then [p, t] else []
    | _ => []

/-- Modelled from the spec (section 4.1): the resolver folds the per-token
expansion over the token list, starting from the empty set. -/
def specResolve (tokens : List String) : List String :=
  tokens.foldl (fun acc t => (specExpandToken t).foldl tinsert acc) []

/-- The ten token strings recognised by the switch in ParseTargets. -/
def knownTokens : List String :=
  ["android", "android/arm", "android/arm64", "android/386", "android/amd64",
   "ios", "ios/arm", "ios/arm64", "ios/386", "ios/amd64"]

/-- The full ten-element target universe: both platform markers and all
per-platform architecture entries. -/
def allTargets : List String := knownTokens

/-- Error values flowing through Bind. Go errors are modelled as messages; a
Go runtime panic (such as indexing an empty slice) is a distinct outcome,
since it is not an error return value. -/
inductive Err where
  | msg : String → Err
  | panicIndexOutOfRange : Err
deriving DecidableEq

/-- Rendering of an error for the message-wrapping done with fmt.Errorf. -/
def errString : Err → String
  | .msg s => s
  | .panicIndexOutOfRange => "runtime error: index out of range"

/-- The fields of a go/build package that Bind reads. -/
structure Pkg where
  name : String
  importComment : String
  dir : String
  imports : List String
deriving DecidableEq

/-- The fields of an os.FileInfo that Bind reads. -/
structure FileInfo where
  name : String
  isDir : Bool
deriving DecidableEq

/-- One per-architecture build result, as sent over archChan (bind.go lines
239-243): the architecture, the produced archive path, and the error from the
external compiler invocation. -/
structure ArchPath where
  arch : String
  path : String
  err : Option Err
deriving DecidableEq

/-- External side effects Bind performs, in invocation order. Every call to a
filesystem or tool helper is recorded, whether or not it succeeds (the
per-architecture iOS compiler invocations happen inside goroutines and are
observed by the coordinator only through arrival of their results, so they do
not appear here; the sequential Android compiler invocations do). -/
inductive BindAction where
  | mkdir : String → BindAction
  | writeFile : String → BindAction
  | copyFile : String → String → BindAction
  | copyDir : String → String → BindAction
  | copyDirContents : String → String → BindAction
  | removeAll : String → BindAction
  | runCmd : List String → BindAction
  | goBuildAndroid : String → BindAction
  | buildAAR : String → BindAction
deriving DecidableEq

/-- Path joining, as filepath.Join over slash paths. -/
def filepathJoin (parts : List String) : String := String.intercalate "/" parts

/-- Directory of a slash path, as filepath.Dir: drop the last component. -/
def filepathDir (s : String) : String :=
  String.intercalate "/" ((s.splitOn "/").dropLast)

/-- Outcomes of the external collaborators Bind drives (spec section 1 treats
the compiler, the merge tool, the packager and the filesystem helpers as
external collaborators). Each field gives the result the collaborator would
report for a given invocation. iosArrival is the sequence of per-architecture
BuildResults in the order they arrive on archChan; the goroutines each send
exactly one result, so in any real run its length equals the number of
dispatched jobs, but the order is arbitrary (scheduling-dependent). -/
structure BindEnv where
  newTmpDir : Except Err String
  goMobilePath : Except Err String
  readFile : String → Except Err String
  goVersion : Except Err String
  getwd : Except Err String
  pathClean : String → String
  importAll : List String → String → Except Err (List Pkg)
  packageDir : String → Except Err String
  mkdir : String → Except Err Unit
  writeFile : String → Except Err Unit
  copyFile : String → String → Except Err Unit
  copyDir : String → String → Except Err Unit
  removeAll : String → Except Err Unit
  readDir : String → Except Err (List FileInfo)
  darwinArmEnv : Except Err (List String)
  darwinArm64Env : Except Err (List String)
  darwin386Env : Except Err (List String)
  darwinAmd64Env : Except Err (List String)
  iosArrival : List ArchPath
  runCmd : List String → Except Err Unit
  getAndroidEnv : Except Err (String → List String)
  goBuildAndroid : String → Except Err Unit
  buildAAR : Except Err Unit

/-- A step outcome: the result together with the external actions performed
while producing it. -/
abbrev StepOut (α : Type) := Except Err α × List BindAction

/-- Sequencing of step outcomes: on success continue, accumulating the trace;
on failure stop, keeping the actions performed so far. -/
def seqA {α β : Type} (x : StepOut α) (k : α → StepOut β) : StepOut β :=
  match x with
  | (.ok a, tr) => ((k a).fst, tr ++ (k a).snd)
  | (.error e, tr) => (.error e, tr)

/-- A pure step with no external action. -/
def extCall {α : Type} (r : Except Err α) : StepOut α := (r, [])

/-- A step that invokes one external action and reports its result. -/
def doAct {α : Type} (a : BindAction) (r : Except Err α) : StepOut α := (r, [a])

/-- A successful step with no external action. -/
def okA {α : Type} (a : α) : StepOut α := (.ok a, [])

/-- The command-line flags Bind reads. ShouldRun is the predicate the source
calls on the flag set to decide whether external commands really run. -/
structure Flags where
  buildTargets : String
  buildWork : Bool
  buildBinary : Bool
  buildO : String
  shouldRun : Bool

/-- Modelled from the spec: ArchClang, the per-architecture clang architecture
name mapping used for the merge-tool arguments; the helper is not under src/,
and the spec only requires an explicit architecture-to-file mapping. -/
def archClang : String → String
  | "arm" => "armv7"
  | "arm64" => "arm64"
  | "386" => "i386"
  | "amd64" => "x86_64"
  | a => a

/-- Conditional appending of one per-architecture darwin environment
(bind.go lines 210-237: each requested iOS architecture fetches its
environment, any failure aborting Bind). -/
def addEnvIf (cond : Bool) (get : Except Err (List String))
    (envs : List (List String)) : Except Err (List (List String)) :=
  if cond then
    match get with
    | .error e => .error e
    | .ok v => .ok (envs ++ [v])
  else .ok envs

/-- The envs slice built in bind.go lines 209-237: one darwin environment per
requested iOS architecture, in the fixed order arm, arm64, 386, amd64. -/
def iosEnvs (targets : List String) (env : BindEnv) : Except Err (List (List String)) :=
  match addEnvIf (memS "ios/arm" targets) env.darwinArmEnv [] with
  | .error e => .error e
  | .ok l1 =>
    match addEnvIf (memS "ios/arm64" targets) env.darwinArm64Env l1 with
    | .error e => .error e
    | .ok l2 =>
      match addEnvIf (memS "ios/386" targets) env.darwin386Env l2 with
      | .error e => .error e
      | .ok l3 => addEnvIf (memS "ios/amd64" targets) env.darwinAmd64Env l3

/-- The receive loop of bind.go lines 254-261: read one result per dispatched
job from the arrival sequence, returning the first error as soon as it
arrives — later arrivals are never read — and otherwise the results in
arrival order. The fuel is the number of dispatched jobs; in Go a shorter
arrival sequence would block forever (each goroutine sends exactly one
result, so it cannot occur), and that branch returns the results read so
far. -/
def collectArchs : Nat → List ArchPath → Except Err (List ArchPath)
  | 0, _ => .ok []
  | _ + 1, [] => .ok []
  | n + 1, a :: rest =>
    match a.err with
    | some e => .error e
    | none =>
      match collectArchs n rest with
      | .error e => .error e
      | .ok l => .ok (a :: l)

/-- WriteFile of the generated entry-point main package (bind.go lines
162-169 and 331-338). Modelled from the spec for the helper itself (WriteFile
is not under src/): it writes the file by invoking the content generator.
The content is fmt.Sprintf(BindFile, args[0]); evaluating args[0] on an empty
argument list is a Go runtime panic, modelled as the distinct panic
outcome. -/
def writeMainFile (env : BindEnv) (args : List String) (mainPath wrapMsg : String) :
    StepOut Unit :=
  match args with
  | [] => (.error .panicIndexOutOfRange, [])
  | _ :: _ =>
    match env.writeFile mainPath with
    | .error e => (.error (.msg (wrapMsg ++ errString e)), [BindAction.writeFile mainPath])
    | .ok _ => (.ok (), [BindAction.writeFile mainPath])

/-- The package ios-directory copying of bind.go lines 172-197: for each
package importing the bridge, list its directory (errors skipped with
continue) and copy any ios subdirectory into the work output directory; the
CopyDirContents result is not checked, so this loop never fails. -/
def iosCopyActions (env : BindEnv) (pkgs : List Pkg) (workOutputDir : String) :
    List BindAction :=
  (pkgs.map (fun pkg =>
    if memS "gomatcha.io/bridge" pkg.imports then
      match env.readDir pkg.dir with
      | .error _ => []
      | .ok files =>
        (files.map (fun f =>
          if f.isDir ∧ f.name = "ios" then
            [BindAction.copyDirContents workOutputDir (filepathJoin [pkg.dir, "ios"])]
          else [])).flatten
    else [])).flatten

/-- The full-bundle support-file phase of bind.go lines 172-205: package ios
directories, then the two header copies into the Xcode project (each checked,
a failure aborting Bind). -/
def iosCopySupport (env : BindEnv) (pkgs : List Pkg) (workOutputDir cmdPath : String) :
    StepOut Unit :=
  seqA ((.ok (), iosCopyActions env pkgs workOutputDir) : StepOut Unit) fun _ =>
  seqA (doAct
      (.copyFile (filepathJoin [workOutputDir, "MatchaBridge", "MatchaBridge", "matchaobjc.h"])
        (filepathJoin [cmdPath, "matchaforeign.h.support"]))
      (env.copyFile (filepathJoin [workOutputDir, "MatchaBridge", "MatchaBridge", "matchaobjc.h"])
        (filepathJoin [cmdPath, "matchaforeign.h.support"]))) fun _ =>
  doAct
    (.copyFile (filepathJoin [workOutputDir, "MatchaBridge", "MatchaBridge", "matchago.h"])
      (filepathJoin [cmdPath, "matchago.h.support"]))
    (env.copyFile (filepathJoin [workOutputDir, "MatchaBridge", "MatchaBridge", "matchago.h"])
      (filepathJoin [cmdPath, "matchago.h.support"]))

/-- The iOS block of Bind (bind.go lines 144-294): work directories, the
generated main package, support files, the concurrently dispatched
per-architecture builds whose results arrive on archChan, the lipo merge of
the collected archives in arrival order, and the output copy. The goroutine
bodies (lines 246-252) perform the external compiler invocation and send one
result each; the coordinator observes them only through iosArrival. The
GOPATH environment manipulation is internal to the goroutines and not
observable here. -/
def bindIos (flags : Flags) (args : List String) (env : BindEnv)
    (targets : List String) (tempdir cmdPath : String) (pkgs : List Pkg) : StepOut Unit :=
  if memS "ios" targets then
    let workOutputDir := filepathJoin [tempdir, "matcha-ios"]
    seqA (doAct (.mkdir workOutputDir) (env.mkdir workOutputDir)) fun _ =>
    let binaryPath := filepathJoin [workOutputDir, "MatchaBridge", "MatchaBridge", "MatchaBridge.a"]
    seqA (doAct (.mkdir (filepathDir binaryPath)) (env.mkdir (filepathDir binaryPath))) fun _ =>
    let mainPath := filepathJoin [tempdir, "src", "iosbin", "main.go"]
    seqA (writeMainFile env args mainPath "failed to create the binding package for iOS: ") fun _ =>
    seqA (if flags.buildBinary then okA () else iosCopySupport env pkgs workOutputDir cmdPath) fun _ =>
    seqA (extCall (iosEnvs targets env)) fun envs =>
    seqA (extCall (collectArchs envs.length env.iosArrival)) fun archs =>
    let lipoArgs := ["xcrun", "lipo", "-create"] ++
      (archs.map (fun i => ["-arch", archClang i.arch, i.path])).flatten ++ ["-o", binaryPath]
    seqA (doAct (.runCmd lipoArgs) (env.runCmd lipoArgs)) fun _ =>
    let outputDir := if flags.buildO = "" then "Matcha-iOS" else flags.buildO
    if flags.buildBinary then
      doAct
        (.copyFile (filepathJoin [outputDir, "ios", "MatchaBridge", "MatchaBridge", "MatchaBridge.a"])
          binaryPath)
        (env.copyFile (filepathJoin [outputDir, "ios", "MatchaBridge", "MatchaBridge", "MatchaBridge.a"])
          binaryPath)
    else
      seqA (doAct (.removeAll outputDir) (env.removeAll outputDir)) fun _ =>
      doAct (.copyDir outputDir workOutputDir) (env.copyDir outputDir workOutputDir)
  else okA ()

/-- The androidArchs slice of bind.go lines 304-316, in the fixed order arm,
arm64, 386, amd64. -/
def androidArchsOf (targets : List String) : List String :=
  (if memS "android/arm" targets then ["arm"] else []) ++
  (if memS "android/arm64" targets then ["arm64"] else []) ++
  (if memS "android/386" targets then ["386"] else []) ++
  (if memS "android/amd64" targets then ["amd64"] else [])

/-- The Android build loop of bind.go lines 368-387: strictly sequential —
each iteration fetches the Android environment and performs one blocking
compiler invocation, and any error returns immediately, so architectures
after a failing one are never built. -/
def androidBuildLoop (env : BindEnv) : List String → StepOut Unit
  | [] => okA ()
  | arch :: rest =>
    match env.getAndroidEnv with
    | .error e => (.error e, [])
    | .ok _ =>
      match env.goBuildAndroid arch with
      | .error e => (.error e, [BindAction.goBuildAndroid arch])
      | .ok _ =>
        let r := androidBuildLoop env rest
        (r.fst, BindAction.goBuildAndroid arch :: r.snd)

/-- The Android block of Bind (bind.go lines 295-402): the generated main
package, the java bridge sources, work directories, the sequential
per-architecture builds, the aar packaging, and the output copy. -/
def bindAndroid (flags : Flags) (args : List String) (env : BindEnv)
    (targets : List String) (tempdir cmdPath : String) : StepOut Unit :=
  if memS "android" targets then
    seqA (extCall env.goMobilePath) fun _ =>
    let androidDir := filepathJoin [tempdir, "android"]
    let mainPath := filepathJoin [tempdir, "androidlib", "main.go"]
    seqA (writeMainFile env args mainPath "failed to create the main package for android: ") fun _ =>
    let javaDir2 := filepathJoin [androidDir, "src", "main", "java", "io", "gomatcha", "bridge"]
    seqA (doAct (.mkdir javaDir2) (env.mkdir javaDir2)) fun _ =>
    seqA (doAct (.copyFile (filepathJoin [javaDir2, "GoValue.java"]) (filepathJoin [cmdPath, "GoValue.java"]))
      (env.copyFile (filepathJoin [javaDir2, "GoValue.java"]) (filepathJoin [cmdPath, "GoValue.java"]))) fun _ =>
    seqA (doAct (.copyFile (filepathJoin [javaDir2, "Bridge.java"]) (filepathJoin [cmdPath, "Bridge.java"]))
      (env.copyFile (filepathJoin [javaDir2, "Bridge.java"]) (filepathJoin [cmdPath, "Bridge.java"]))) fun _ =>
    seqA (doAct (.copyFile (filepathJoin [javaDir2, "Tracker.java"]) (filepathJoin [cmdPath, "Tracker.java"]))
      (env.copyFile (filepathJoin [javaDir2, "Tracker.java"]) (filepathJoin [cmdPath, "Tracker.java"]))) fun _ =>
    let workOutputDir := filepathJoin [tempdir, "matcha-android"]
    seqA (doAct (.mkdir workOutputDir) (env.mkdir workOutputDir)) fun _ =>
    let aarDirPath := filepathJoin [workOutputDir, "MatchaBridge"]
    let aarPath := filepathJoin [workOutputDir, "MatchaBridge", "matchabridge.aar"]
    seqA (doAct (.mkdir aarDirPath) (env.mkdir aarDirPath)) fun _ =>
    seqA (androidBuildLoop env (androidArchsOf targets)) fun _ =>
    seqA (doAct (.buildAAR aarPath) env.buildAAR) fun _ =>
    let outputDir := if flags.buildO = "" then "Matcha-iOS" else flags.buildO
    doAct (.copyFile (filepathJoin [outputDir, "android", "matchabridge.aar"]) aarPath)
      (env.copyFile (filepathJoin [outputDir, "android", "matchabridge.aar"]) aarPath)
  else okA ()

/-- The body of Bind after the working directory exists (bind.go lines
74-403): toolchain checks, package import, the main-package guard, the
supporting-file directory, then the iOS and Android blocks in order. The
build.Context values (lines 104-108 and 323-326) are plain data handed to the
external collaborators and carry no control flow of their own. -/
def bindBody (flags : Flags) (args : List String) (env : BindEnv)
    (targets : List String) (tempdir : String) : StepOut Unit :=
  seqA (extCall env.goMobilePath) fun gomobilepath =>
  seqA (extCall (match env.readFile (filepathJoin [gomobilepath, "version"]) with
    | .error _ => .error (Err.msg "toolchain incomplete, run matcha init")
    | .ok v => (.ok v : Except Err String))) fun installedVersion =>
  seqA (extCall env.goVersion) fun goVersion =>
  seqA (extCall (if installedVersion ≠ goVersion ∧ flags.shouldRun = true then
      (.error (Err.msg "toolchain out of date, run matcha init") : Except Err Unit)
    else .ok ())) fun _ =>
  seqA (extCall env.getwd) fun cwd =>
  seqA (extCall (env.importAll (if args = [] then ["."] else args.map env.pathClean) cwd)) fun pkgs =>
  seqA (extCall (match pkgs.find? (fun p => p.name == "main") with
    | some pkg =>
      (.error (Err.msg ("binding main package (" ++ pkg.importComment ++ ") is not supported")) :
        Except Err Unit)
    | none => .ok ())) fun _ =>
  seqA (extCall (env.packageDir "gomatcha.io/matcha/cmd")) fun cmdPath =>
  seqA (bindIos flags args env targets tempdir cmdPath pkgs) fun _ =>
  bindAndroid flags args env targets tempdir cmdPath

/-- Bind (bind.go lines 62-404). The name Bind itself is taken by a core type
class, so the embedding is called BindCmd. It resolves the targets, creates
the working directory, and — mirroring the deferred RemoveAll registered at
lines 70-72, which runs on every exit path including panics once the
directory exists — appends the working-directory removal to the trace unless
the keep-work flag is set. -/
def BindCmd (flags : Flags) (args : List String) (env : BindEnv) : StepOut Unit :=
  let targets := ParseTargets flags.buildTargets
  match env.newTmpDir with
  | .error e => (.error e, [])
  | .ok tempdir =>
    let body := bindBody flags args env targets tempdir
    if flags.buildWork then body else (body.fst, body.snd ++ [BindAction.removeAll tempdir])

/-- A run configuration for the witnesses: two iOS architectures, binary
mode, an output directory, cleanup enabled. -/
def flagsIos : Flags := ⟨"ios/arm ios/arm64", false, true, "out", true⟩

/-- A run configuration with the default (empty) target specification. -/
def flagsDefault : Flags := ⟨"", false, true, "", true⟩

/-- A run configuration targeting the whole android platform. -/
def flagsAndroid : Flags := ⟨"android", false, true, "out", true⟩

/-- A collaborator environment in which every external step succeeds and the
two iOS build results arrive in the order arm, arm64. -/
def envOk : BindEnv := {
  newTmpDir := .ok "/tmp/work"
  goMobilePath := .ok "/go/pkg/gomobile"
  readFile := fun _ => .ok "v1"
  goVersion := .ok "v1"
  getwd := .ok "/home/dev/app"
  pathClean := fun s => s
  importAll := fun _ _ => .ok [⟨"app", "example.com/app", "/home/dev/app", []⟩]
  packageDir := fun _ => .ok "/go/src/gomatcha.io/matcha/cmd"
  mkdir := fun _ => .ok ()
  writeFile := fun _ => .ok ()
  copyFile := fun _ _ => .ok ()
  copyDir := fun _ _ => .ok ()
  removeAll := fun _ => .ok ()
  readDir := fun _ => .ok []
  darwinArmEnv := .ok ["GOOS=darwin", "GOARCH=arm"]
  darwinArm64Env := .ok ["GOOS=darwin", "GOARCH=arm64"]
  darwin386Env := .ok ["GOOS=darwin", "GOARCH=386"]
  darwinAmd64Env := .ok ["GOOS=darwin", "GOARCH=amd64"]
  iosArrival := [⟨"arm", "/tmp/work/matcha-arm.a", none⟩,
                 ⟨"arm64", "/tmp/work/matcha-arm64.a", none⟩]
  runCmd := fun _ => .ok ()
  getAndroidEnv := .ok (fun _ => [])
  goBuildAndroid := fun _ => .ok ()
  buildAAR := .ok () }

/-- The same environment with the two iOS build results arriving in the
opposite order, arm64 then arm. -/
def envSwapped : BindEnv := { envOk with
  iosArrival := [⟨"arm64", "/tmp/work/matcha-arm64.a", none⟩,
                 ⟨"arm", "/tmp/work/matcha-arm.a", none⟩] }

/-- The same environment with the Android build of the arm architecture
failing and every other step succeeding. -/
def envArmFails : BindEnv := { envOk with
  goBuildAndroid := fun a => if a = "arm" then .error (Err.msg "gobuild failed") else .ok () }

/-- The all-success environment except that the arm64 iOS build job reports
an error, arriving after the successful arm result. -/
def envIosFails : BindEnv := { envOk with
  iosArrival := [⟨"arm", "/tmp/work/matcha-arm.a", none⟩,
                 ⟨"arm64", "/tmp/work/matcha-arm64.a", some (Err.msg "ios build failed")⟩] }

theorem memS_iff (x : String) (l : List String) : memS x l = true ↔ x ∈ l := by
  induction l with
  | nil => simp [memS]
  | cons y ys ih => by_cases h : x = y <;> simp [memS, h, ih]

theorem subS_iff (s t : List String) : subS s t = true ↔ s ⊆ t := by
  simp [subS, List.all_eq_true, memS_iff, List.subset_def]

theorem mem_tinsert (y x : String) (l : List String) : y ∈ tinsert l x ↔ y ∈ l ∨ y = x := by
  unfold tinsert
  by_cases h : memS x l = true
  · rw [if_pos h, memS_iff] at *
    constructor
    · exact Or.inl
    · rintro (hy | rfl)
      · exact hy
      · exact h
  · rw [if_neg h]
    simp

theorem tinsert_ne_nil (l : List String) (x : String) : tinsert l x ≠ [] := by
  unfold tinsert
  by_cases h : memS x l = true
  · rw [if_pos h]
    intro he
    subst he
    simp [memS] at h
  · rw [if_neg h]
    simp

theorem tinsert_nodup (l : List String) (x : String) (h : l.Nodup) : (tinsert l x).Nodup := by
  unfold tinsert
  by_cases hm : memS x l = true
  · simpa [hm]
  · rw [if_neg hm]
    have hx : x ∉ l := fun hc => hm ((memS_iff x l).mpr hc)
    simp [List.nodup_append, h, hx]

theorem sub_tinsert (l : List String) (x : String) : l ⊆ tinsert l x := by
  intro y hy
  rw [mem_tinsert]
  exact Or.inl hy

theorem sub_addToken (acc : List String) (i : String) : acc ⊆ addToken acc i := by
  unfold addToken
  split_ifs <;> intro y hy <;> (try simp [mem_tinsert]) <;> tauto

theorem addToken_unknown (acc : List String) (i : String) (h : i ∉ knownTokens) :
    addToken acc i = acc := by
  simp only [knownTokens, List.mem_cons, List.not_mem_nil, or_false, not_or] at h
  obtain ⟨h1, h2, h3, h4, h5, h6, h7, h8, h9, h10⟩ := h
  simp [addToken, h1, h2, h3, h4, h5, h6, h7, h8, h9, h10]

theorem mem_addToken_super (acc : List String) (i x : String) (h : x ∈ addToken acc i) :
    x ∈ acc ∨ x ∈ knownTokens := by
  unfold addToken at h
  split_ifs at h with h1 h2 h3 h4
  · simp only [mem_tinsert] at h
    rcases h with (((((h | h) | h) | h) | h) | h) <;> try (subst h; simp [knownTokens])
    exact Or.inl h
  · simp only [mem_tinsert] at h
    rcases h with ((h | h) | h)
    · exact Or.inl h
    · subst h; simp [knownTokens]
    · subst h; rcases h2 with h2 | h2 | h2 | h2 <;> (subst h2; simp [knownTokens])
  · simp only [mem_tinsert] at h
    rcases h with (((((h | h) | h) | h) | h) | h) <;> try (subst h; simp [knownTokens])
    exact Or.inl h
  · simp only [mem_tinsert] at h
    rcases h with ((h | h) | h)
    · exact Or.inl h
    · subst h; simp [knownTokens]
    · subst h; rcases h4 with h4 | h4 | h4 | h4 <;> (subst h4; simp [knownTokens])
  · exact Or.inl h

theorem addToken_ne_nil (acc : List String) (i : String) (h : i ∈ knownTokens) :
    addToken acc i ≠ [] := by
  simp only [knownTokens, List.mem_cons, List.not_mem_nil, or_false] at h
  rcases h with rfl | rfl | rfl | rfl | rfl | rfl | rfl | rfl | rfl | rfl <;>
    simp [addToken, tinsert_ne_nil]

theorem foldl_addToken_sub (ts : List String) (acc : List String) :
    acc ⊆ ts.foldl addToken acc := by
  induction ts generalizing acc with
  | nil => exact fun y hy => hy
  | cons t ts ih => exact (sub_addToken acc t).trans (ih (addToken acc t))

theorem foldl_addToken_super (ts : List String) (acc : List String) (x : String)
    (h : x ∈ ts.foldl addToken acc) : x ∈ acc ∨ x ∈ knownTokens := by
  induction ts generalizing acc with
  | nil => exact Or.inl h
  | cons t ts ih =>
    rcases ih (addToken acc t) h with h2 | h2
    · exact mem_addToken_super acc t x h2
    · exact Or.inr h2

theorem addToken_nodup (acc : List String) (i : String) (h : acc.Nodup) :
    (addToken acc i).Nodup := by
  unfold addToken
  split_ifs <;> (repeat' apply tinsert_nodup) <;> exact h

theorem foldl_addToken_nodup (ts : List String) (acc : List String) (h : acc.Nodup) :
    (ts.foldl addToken acc).Nodup := by
  induction ts generalizing acc with
  | nil => exact h
  | cons t ts ih => exact ih (addToken acc t) (addToken_nodup acc t h)

theorem mem_addToken_known (acc : List String) (i x : String) (h : i ∈ knownTokens) :
    x ∈ addToken acc i ↔ x ∈ acc ∨ x ∈ specExpandToken i := by
  simp only [knownTokens, List.mem_cons, List.not_mem_nil, or_false] at h
  rcases h with rfl | rfl | rfl | rfl | rfl | rfl | rfl | rfl | rfl | rfl
  · simp only [show specExpandToken "android"
        = ["android", "android/arm", "android/arm64", "android/386", "android/amd64"]
        from by decide]
    simp [addToken, mem_tinsert]
    tauto
  · simp only [show specExpandToken "android/arm" = ["android", "android/arm"] from by decide]
    simp [addToken, mem_tinsert]
    tauto
  · simp only [show specExpandToken "android/arm64" = ["android", "android/arm64"] from by decide]
    simp [addToken, mem_tinsert]
    tauto
  · simp only [show specExpandToken "android/386" = ["android", "android/386"] from by decide]
    simp [addToken, mem_tinsert]
    tauto
  · simp only [show specExpandToken "android/amd64" = ["android", "android/amd64"] from by decide]
    simp [addToken, mem_tinsert]
    tauto
  · simp only [show specExpandToken "ios"
        = ["ios", "ios/arm", "ios/arm64", "ios/386", "ios/amd64"] from by decide]
    simp [addToken, mem_tinsert]
    tauto
  · simp only [show specExpandToken "ios/arm" = ["ios", "ios/arm"] from by decide]
    simp [addToken, mem_tinsert]
    tauto
  · simp only [show specExpandToken "ios/arm64" = ["ios", "ios/arm64"] from by decide]
    simp [addToken, mem_tinsert]
    tauto
  · simp only [show specExpandToken "ios/386" = ["ios", "ios/386"] from by decide]
    simp [addToken, mem_tinsert]
    tauto
  · simp only [show specExpandToken "ios/amd64" = ["ios", "ios/amd64"] from by decide]
    simp [addToken, mem_tinsert]
    tauto

theorem mem_foldl_tinsert (ts : List String) (acc : List String) (x : String) :
    x ∈ ts.foldl tinsert acc ↔ x ∈ acc ∨ x ∈ ts := by
  induction ts generalizing acc with
  | nil => simp
  | cons t ts ih =>
    rw [List.foldl_cons, ih, mem_tinsert]
    simp only [List.mem_cons]
    tauto

theorem mem_specFold (ts : List String) (acc : List String) (x : String) :
    x ∈ ts.foldl (fun acc t => (specExpandToken t).foldl tinsert acc) acc ↔
      x ∈ acc ∨ ∃ t ∈ ts, x ∈ specExpandToken t := by
  induction ts generalizing acc with
  | nil => simp
  | cons t ts ih =>
    rw [List.foldl_cons, ih, mem_foldl_tinsert]
    simp only [List.mem_cons]
    constructor
    · rintro ((h | h) | ⟨u, hu, hx⟩)
      · exact Or.inl h
      · exact Or.inr ⟨t, Or.inl rfl, h⟩
      · exact Or.inr ⟨u, Or.inr hu, hx⟩
    · rintro (h | ⟨u, (rfl | hu), hx⟩)
      · exact Or.inl (Or.inl h)
      · exact Or.inl (Or.inr hx)
      · exact Or.inr ⟨u, hu, hx⟩

theorem mem_foldl_addToken (ts : List String) (acc : List String) (x : String)
    (h : ∀ t ∈ ts, t ∈ knownTokens) :
    x ∈ ts.foldl addToken acc ↔ x ∈ acc ∨ ∃ t ∈ ts, x ∈ specExpandToken t := by
  induction ts generalizing acc with
  | nil => simp
  | cons t ts ih =>
    rw [List.foldl_cons, ih _ (fun u hu => h u (List.mem_cons_of_mem t hu)),
      mem_addToken_known acc t x (h t (List.mem_cons_self t ts))]
    simp only [List.mem_cons]
    constructor
    · rintro ((h1 | h1) | ⟨u, hu, hx⟩)
      · exact Or.inl h1
      · exact Or.inr ⟨t, Or.inl rfl, h1⟩
      · exact Or.inr ⟨u, Or.inr hu, hx⟩
    · rintro (h1 | ⟨u, (rfl | hu), hx⟩)
      · exact Or.inl (Or.inl h1)
      · exact Or.inl (Or.inr hx)
      · exact Or.inr ⟨u, hu, hx⟩

theorem parseTargets_eq_of_ne_nil (s : String) (h1 : fields s ≠ []) :
    ParseTargets s = (fields s).foldl addToken [] := by
  simp [ParseTargets, h1]

theorem parseTargets_eq_of_nil (s : String) (h1 : fields s = []) :
    ParseTargets s = ["android", "ios"].foldl addToken [] := by
  simp [ParseTargets, h1]

theorem foldl_addToken_filter (ts : List String) (acc : List String) :
    ts.foldl addToken acc = (ts.filter (fun t => memS t knownTokens)).foldl addToken acc := by
  induction ts generalizing acc with
  | nil => rfl
  | cons t ts ih =>
    by_cases h : memS t knownTokens = true
    · simp only [List.foldl_cons, List.filter_cons, h, if_true, ite_true]
      exact ih (addToken acc t)
    · have hu : addToken acc t = acc :=
        addToken_unknown acc t (fun hc => h ((memS_iff t knownTokens).mpr hc))
      simp only [List.foldl_cons, List.filter_cons, h, if_false, ite_false, hu]
      exact ih acc

/-- C5: ParseTargets applied to the empty string returns the same target set
as ParseTargets applied to "android ios": the empty specification falls back
to the token list ["android", "ios"], so the two runs fold the very same
tokens and produce identical sets. -/
theorem parseTargets_empty_eq_both_platforms :
    ParseTargets "" = ParseTargets "android ios" := by decide

/-- C6: tokens that are not one of the ten recognised target strings are
silently ignored: for every input, ParseTargets equals the fold over only the
recognised tokens of its (defaulted) token list, and it is a total function,
so an unknown token never produces an error. -/
theorem parseTargets_ignores_unknown_tokens (s : String) :
    ParseTargets s =
      ((if fields s = [] then ["android", "ios"] else fields s).filter
        (fun t => memS t knownTokens)).foldl addToken [] := by
  simp only [ParseTargets]
  exact foldl_addToken_filter _ []

/-- C10: for every input string, the set returned by ParseTargets is a subset
of the fixed ten-element universe of known targets, and that universe is
exactly ParseTargets applied to the empty string, so every resolution is a
subset of the default one. -/
theorem parseTargets_subset_universe :
    (∀ s, ParseTargets s ⊆ allTargets) ∧ ParseTargets "" = allTargets := by
  constructor
  · intro s x hx
    simp only [ParseTargets] at hx
    rcases foldl_addToken_super _ [] x hx with h | h
    · exact absurd h (List.not_mem_nil x)
    · simpa [allTargets] using h
  · decide

/-- C3 counterexample: on the input "zzz", whose only token is unknown, the
token list is non-empty (so the default is not used) and the switch ignores
the token, so ParseTargets returns the empty set — refuting the claim that
the resolved target set is non-empty for every input. -/
theorem parseTargets_empty_set_on_unknown_input : ParseTargets "zzz" = [] := by decide

/-- C3 amended: the resolved target set is non-empty whenever the input has
no tokens at all (the default "android ios" set is used) or contains at least
one recognised token; an input consisting solely of unknown tokens resolves
to the empty set. -/
theorem parseTargets_nonempty_amended (s : String)
    (h : fields s = [] ∨ ∃ t ∈ fields s, memS t knownTokens = true) :
    ParseTargets s ≠ [] := by
  rcases h with h | ⟨t, ht, hkn⟩
  · rw [parseTargets_eq_of_nil s h]
    decide
  · have h1 : fields s ≠ [] := by
      intro hc
      rw [hc] at ht
      exact absurd ht (List.not_mem_nil t)
    rw [parseTargets_eq_of_ne_nil s h1]
    obtain ⟨l1, l2, heq⟩ := List.append_of_mem ht
    rw [heq, List.foldl_append, List.foldl_cons]
    have hne : addToken (List.foldl addToken [] l1) t ≠ [] :=
      addToken_ne_nil _ _ ((memS_iff t knownTokens).mp hkn)
    obtain ⟨y, hy⟩ := List.exists_mem_of_ne_nil _ hne
    intro hc
    have hmem := foldl_addToken_sub l2 _ hy
    rw [hc] at hmem
    exact absurd hmem (List.not_mem_nil y)

theorem parseTargets_nonempty_amended_witness :
    (fields "ios zzz" = [] ∨ ∃ t ∈ fields "ios zzz", memS t knownTokens = true) ∧
      ParseTargets "ios zzz" ≠ [] :=
  ⟨Or.inr (by decide), parseTargets_nonempty_amended "ios zzz" (Or.inr (by decide))⟩

/-- C4: for a non-empty list of well-formed tokens (each token one of the ten
recognised target strings), ParseTargets returns, as a set, exactly the
spec-side resolution — for each bare platform token the platform marker plus
every known architecture of that platform, and for each fully qualified token
the platform marker plus exactly that architecture — and the returned list
has no duplicate entries. -/
theorem parseTargets_wellformed_exact (s : String)
    (h1 : fields s ≠ []) (h2 : subS (fields s) knownTokens = true) :
    (∀ x, x ∈ ParseTargets s ↔ x ∈ specResolve (fields s)) ∧
      (ParseTargets s).Nodup := by
  have hall : ∀ t ∈ fields s, t ∈ knownTokens := (subS_iff _ _).mp h2
  constructor
  · intro x
    rw [parseTargets_eq_of_ne_nil s h1, specResolve,
      mem_foldl_addToken _ [] x hall, mem_specFold]
  · rw [parseTargets_eq_of_ne_nil s h1]
    exact foldl_addToken_nodup _ [] List.nodup_nil

theorem parseTargets_wellformed_exact_witness :
    (fields "android ios/arm" ≠ [] ∧ subS (fields "android ios/arm") knownTokens = true) ∧
      ((∀ x, x ∈ ParseTargets "android ios/arm" ↔
          x ∈ specResolve (fields "android ios/arm")) ∧
        (ParseTargets "android ios/arm").Nodup) :=
  ⟨⟨by decide, by decide⟩,
    parseTargets_wellformed_exact "android ios/arm" (by decide) (by decide)⟩

theorem seqA_ok {α β : Type} (a : α) (tr : List BindAction) (k : α → StepOut β) :
    seqA (.ok a, tr) k = ((k a).fst, tr ++ (k a).snd) := rfl

theorem seqA_err {α β : Type} (e : Err) (tr : List BindAction) (k : α → StepOut β) :
    seqA (.error e, tr) k = (.error e, tr) := rfl

theorem mem_seqA_left {α β : Type} (x : StepOut α) (k : α → StepOut β)
    (a : BindAction) (h : a ∈ x.snd) : a ∈ (seqA x k).snd := by
  rcases x with ⟨r, tr⟩
  cases r with
  | ok v => simp only [seqA]; exact List.mem_append_left _ h
  | error e => exact h

theorem collectArchs_error (pre post : List ArchPath) (bad : ArchPath) (e : Err) (n : Nat)
    (hok : ∀ x ∈ pre, x.err = none) (hbad : bad.err = some e) (hlen : pre.length < n) :
    collectArchs n (pre ++ bad :: post) = .error e := by
  induction pre generalizing n with
  | nil =>
    cases n with
    | zero => exact absurd hlen (by simp)
    | succ m => simp [collectArchs, hbad]
  | cons x xs ih =>
    cases n with
    | zero => exact absurd hlen (by simp)
    | succ m =>
      have hx : x.err = none := hok x (List.mem_cons_self x xs)
      have hrest := ih m (fun u hu => hok u (List.mem_cons_of_mem x hu)) (by simpa using hlen)
      simp [collectArchs, hx, hrest]

theorem collectArchs_ok (arr : List ArchPath) (hok : ∀ x ∈ arr, x.err = none) :
    collectArchs arr.length arr = .ok arr := by
  induction arr with
  | nil => rfl
  | cons x xs ih =>
    have hx : x.err = none := hok x (List.mem_cons_self x xs)
    have hrest := ih (fun u hu => hok u (List.mem_cons_of_mem x hu))
    simp [collectArchs, hx, hrest]

/-- C7: once the working directory has been created, every exit path of Bind
— success or any failure, whatever the outcomes of the remaining external
steps — ends with the working directory being removed, unless the keep-work
debug flag is set, in which case the trace is exactly the body trace with no
final removal appended. -/
theorem bind_workdir_cleanup (flags : Flags) (args : List String) (env : BindEnv)
    (td : String) (h : env.newTmpDir = .ok td) :
    (flags.buildWork = false →
      (BindCmd flags args env).snd =
        (bindBody flags args env (ParseTargets flags.buildTargets) td).snd ++
          [BindAction.removeAll td] ∧
      BindAction.removeAll td ∈ (BindCmd flags args env).snd) ∧
    (flags.buildWork = true →
      (BindCmd flags args env).snd =
        (bindBody flags args env (ParseTargets flags.buildTargets) td).snd) := by
  simp only [BindCmd, h]
  constructor
  · intro hb
    simp [hb]
  · intro hb
    simp [hb]

theorem bind_workdir_cleanup_witness :
    envOk.newTmpDir = .ok "/tmp/work" ∧ flagsIos.buildWork = false ∧
      BindAction.removeAll "/tmp/work" ∈ (BindCmd flagsIos ["example.com/app"] envOk).snd :=
  ⟨rfl, rfl,
    ((bind_workdir_cleanup flagsIos ["example.com/app"] envOk "/tmp/work" rfl).1 rfl).2⟩

/-- C8: Bind invoked with an empty argument list crashes. The import paths do
default to the current directory (bind.go lines 113-115), but line 163
evaluates args[0] inside the generated-main-file content for the iOS block,
which panics on an empty slice, so with the default target set (which
contains ios) and every external step succeeding, Bind does not proceed to
build — contradicting the documented defaulting behaviour. -/
theorem bind_empty_args_panics :
    (BindCmd flagsDefault [] envOk).fst = .error Err.panicIndexOutOfRange := by rfl

/-- C9 counterexample: Android per-architecture build jobs are not dispatched
concurrently. The target set resolved from "android" requests the amd64
architecture, yet in a run where the arm build fails no amd64 build is ever
invoked — with one concurrent unit of execution per job, every requested job
would have been dispatched before any result was awaited. Bind instead
returns the arm error with the later architectures never built. -/
theorem android_jobs_not_dispatched_concurrently :
    memS "android/amd64" (ParseTargets "android") = true ∧
    BindAction.goBuildAndroid "amd64" ∉
      (BindCmd flagsAndroid ["example.com/app"] envArmFails).snd ∧
    (BindCmd flagsAndroid ["example.com/app"] envArmFails).fst =
      .error (Err.msg "gobuild failed") :=
  ⟨rfl, by decide, rfl⟩

/-- C9 amended: iOS jobs are dispatched concurrently (one goroutine per job,
bind.go lines 244-253, their results observed in scheduling-dependent arrival
order), but Android per-architecture builds run strictly sequentially
(bind.go lines 368-387): each build is invoked only after every earlier one
succeeded, and after a failing build the remaining architectures are never
built and the failing error is returned. -/
theorem androidBuildLoop_sequential (env : BindEnv) (pre post : List String)
    (a : String) (e : Err) (f : String → List String)
    (henv : env.getAndroidEnv = .ok f)
    (hok : ∀ b ∈ pre, env.goBuildAndroid b = .ok ())
    (hfail : env.goBuildAndroid a = .error e) :
    androidBuildLoop env (pre ++ a :: post) =
      (.error e, (pre ++ [a]).map BindAction.goBuildAndroid) := by
  induction pre with
  | nil => simp [androidBuildLoop, henv, hfail]
  | cons b bs ih =>
    have hb : env.goBuildAndroid b = .ok () := hok b (List.mem_cons_self b bs)
    have ih2 := ih (fun u hu => hok u (List.mem_cons_of_mem b hu))
    simp [androidBuildLoop, henv, hb, ih2]

theorem androidBuildLoop_sequential_witness :
    envArmFails.getAndroidEnv = .ok (fun _ => []) ∧
    (∀ b ∈ ([] : List String), envArmFails.goBuildAndroid b = .ok ()) ∧
    envArmFails.goBuildAndroid "arm" = .error (Err.msg "gobuild failed") ∧
    androidBuildLoop envArmFails ([] ++ "arm" :: ["arm64", "386", "amd64"]) =
      (.error (Err.msg "gobuild failed"),
        ([] ++ ["arm"]).map BindAction.goBuildAndroid) :=
  ⟨rfl, fun b hb => absurd hb (List.not_mem_nil b), rfl,
    androidBuildLoop_sequential envArmFails [] ["arm64", "386", "amd64"] "arm"
      (Err.msg "gobuild failed") (fun _ => []) rfl
      (fun b hb => absurd hb (List.not_mem_nil b)) rfl⟩

/-- C2 counterexample: the merge step does not re-sort the collected build
results before invoking the external merge tool. Two runs identical except
for the arrival order of the same two build results (a permutation of each
other) invoke lipo with two different argument lists, each listing the
archives in its own arrival order — so the argument list does depend on the
order in which the concurrent results arrived. -/
theorem lipo_args_depend_on_arrival_order :
    List.Perm envSwapped.iosArrival envOk.iosArrival ∧
    BindAction.runCmd
        ["xcrun", "lipo", "-create", "-arch", "armv7", "/tmp/work/matcha-arm.a",
         "-arch", "arm64", "/tmp/work/matcha-arm64.a", "-o",
         "/tmp/work/matcha-ios/MatchaBridge/MatchaBridge/MatchaBridge.a"] ∈
      (BindCmd flagsIos ["example.com/app"] envOk).snd ∧
    BindAction.runCmd
        ["xcrun", "lipo", "-create", "-arch", "arm64", "/tmp/work/matcha-arm64.a",
         "-arch", "armv7", "/tmp/work/matcha-arm.a", "-o",
         "/tmp/work/matcha-ios/MatchaBridge/MatchaBridge/MatchaBridge.a"] ∈
      (BindCmd flagsIos ["example.com/app"] envSwapped).snd ∧
    (["xcrun", "lipo", "-create", "-arch", "armv7", "/tmp/work/matcha-arm.a",
      "-arch", "arm64", "/tmp/work/matcha-arm64.a", "-o",
      "/tmp/work/matcha-ios/MatchaBridge/MatchaBridge/MatchaBridge.a"] ≠
     ["xcrun", "lipo", "-create", "-arch", "arm64", "/tmp/work/matcha-arm64.a",
      "-arch", "armv7", "/tmp/work/matcha-arm.a", "-o",
      "/tmp/work/matcha-ios/MatchaBridge/MatchaBridge/MatchaBridge.a"]) := by
  refine ⟨?_, by decide, by decide, by decide⟩
  exact List.Perm.swap _ _ _

theorem iosCopyActions_shape (env : BindEnv) (pkgs : List Pkg) (wod : String) :
    ∀ a ∈ iosCopyActions env pkgs wod, ∃ d s, a = BindAction.copyDirContents d s := by
  intro a ha
  unfold iosCopyActions at ha
  rw [List.mem_flatten] at ha
  obtain ⟨l, hl, hal⟩ := ha
  rw [List.mem_map] at hl
  obtain ⟨pkg, hp, rfl⟩ := hl
  by_cases hb : memS "gomatcha.io/bridge" pkg.imports = true
  · rw [if_pos hb] at hal
    cases hrd : env.readDir pkg.dir with
    | error er => simp [hrd] at hal
    | ok files =>
      simp only [hrd] at hal
      rw [List.mem_flatten] at hal
      obtain ⟨l2, hl2, hal2⟩ := hal
      rw [List.mem_map] at hl2
      obtain ⟨f, hf, rfl⟩ := hl2
      by_cases hff : f.isDir ∧ f.name = "ios"
      · rw [if_pos hff] at hal2
        simp only [List.mem_singleton] at hal2
        exact ⟨_, _, hal2⟩
      · rw [if_neg hff] at hal2
        simp at hal2
  · rw [if_neg hb] at hal
    simp at hal

/-- C1: for every dispatched set of per-architecture iOS build jobs, if some
arriving result carries an error then Bind returns that (first-arriving)
failing job's error to its caller regardless of all later arrivals — it does
not wait for them — the merge tool is never invoked and no output bundle is
copied for the platform (the trace is exactly the pre-build setup actions
plus working-directory cleanup), and the successful results that arrived
earlier are discarded: nothing of them is surfaced, only the error. -/
theorem bind_ios_first_error
    (flags : Flags) (args0 : String) (argsRest : List String) (env : BindEnv)
    (td gp ver cwd cmdPath : String) (pkgs : List Pkg)
    (envsL : List (List String)) (pre post : List ArchPath) (bad : ArchPath) (e : Err)
    (h1 : env.newTmpDir = .ok td)
    (h2 : env.goMobilePath = .ok gp)
    (h3 : env.readFile (filepathJoin [gp, "version"]) = .ok ver)
    (h4 : env.goVersion = .ok ver)
    (h5 : env.getwd = .ok cwd)
    (h6 : env.importAll (env.pathClean args0 :: argsRest.map env.pathClean) cwd = .ok pkgs)
    (h7 : pkgs.find? (fun p => p.name == "main") = none)
    (h8 : env.packageDir "gomatcha.io/matcha/cmd" = .ok cmdPath)
    (h9 : memS "ios" (ParseTargets flags.buildTargets) = true)
    (h10 : env.mkdir (filepathJoin [td, "matcha-ios"]) = .ok ())
    (h11 : env.mkdir (filepathDir (filepathJoin [filepathJoin [td, "matcha-ios"],
      "MatchaBridge", "MatchaBridge", "MatchaBridge.a"])) = .ok ())
    (h12 : env.writeFile (filepathJoin [td, "src", "iosbin", "main.go"]) = .ok ())
    (h13 : flags.buildBinary = false →
      env.copyFile (filepathJoin [filepathJoin [td, "matcha-ios"],
          "MatchaBridge", "MatchaBridge", "matchaobjc.h"])
        (filepathJoin [cmdPath, "matchaforeign.h.support"]) = .ok () ∧
      env.copyFile (filepathJoin [filepathJoin [td, "matcha-ios"],
          "MatchaBridge", "MatchaBridge", "matchago.h"])
        (filepathJoin [cmdPath, "matchago.h.support"]) = .ok ())
    (h14 : iosEnvs (ParseTargets flags.buildTargets) env = .ok envsL)
    (h15 : env.iosArrival = pre ++ bad :: post)
    (h16 : ∀ x ∈ pre, x.err = none)
    (h17 : bad.err = some e)
    (h18 : pre.length < envsL.length) :
    BindCmd flags (args0 :: argsRest) env =
      (.error e,
        BindAction.mkdir (filepathJoin [td, "matcha-ios"]) ::
        BindAction.mkdir (filepathDir (filepathJoin [filepathJoin [td, "matcha-ios"],
          "MatchaBridge", "MatchaBridge", "MatchaBridge.a"])) ::
        BindAction.writeFile (filepathJoin [td, "src", "iosbin", "main.go"]) ::
        ((if flags.buildBinary then []
          else iosCopyActions env pkgs (filepathJoin [td, "matcha-ios"]) ++
            [BindAction.copyFile (filepathJoin [filepathJoin [td, "matcha-ios"],
                "MatchaBridge", "MatchaBridge", "matchaobjc.h"])
              (filepathJoin [cmdPath, "matchaforeign.h.support"]),
             BindAction.copyFile (filepathJoin [filepathJoin [td, "matcha-ios"],
                "MatchaBridge", "MatchaBridge", "matchago.h"])
              (filepathJoin [cmdPath, "matchago.h.support"])]) ++
          (if flags.buildWork then [] else [BindAction.removeAll td]))) ∧
    (∀ L, BindAction.runCmd L ∉ (BindCmd flags (args0 :: argsRest) env).snd) ∧
    (∀ d s, BindAction.copyDir d s ∉ (BindCmd flags (args0 :: argsRest) env).snd) := by
  have hcol : collectArchs envsL.length env.iosArrival = .error e := by
    rw [h15]
    exact collectArchs_error pre post bad e envsL.length h16 h17 h18
  have hios : bindIos flags (args0 :: argsRest) env (ParseTargets flags.buildTargets)
      td cmdPath pkgs =
      (.error e,
        BindAction.mkdir (filepathJoin [td, "matcha-ios"]) ::
        BindAction.mkdir (filepathDir (filepathJoin [filepathJoin [td, "matcha-ios"],
          "MatchaBridge", "MatchaBridge", "MatchaBridge.a"])) ::
        BindAction.writeFile (filepathJoin [td, "src", "iosbin", "main.go"]) ::
        (if flags.buildBinary then []
          else iosCopyActions env pkgs (filepathJoin [td, "matcha-ios"]) ++
            [BindAction.copyFile (filepathJoin [filepathJoin [td, "matcha-ios"],
                "MatchaBridge", "MatchaBridge", "matchaobjc.h"])
              (filepathJoin [cmdPath, "matchaforeign.h.support"]),
             BindAction.copyFile (filepathJoin [filepathJoin [td, "matcha-ios"],
                "MatchaBridge", "MatchaBridge", "matchago.h"])
              (filepathJoin [cmdPath, "matchago.h.support"])])) := by
    cases hb : flags.buildBinary with
    | true =>
      simp [bindIos, h9, seqA, doAct, extCall, okA, writeMainFile, h10, h11, h12, hb, h14, hcol]
    | false =>
      obtain ⟨hc1, hc2⟩ := h13 hb
      simp [bindIos, h9, seqA, doAct, extCall, okA, writeMainFile, iosCopySupport,
        h10, h11, h12, hb, hc1, hc2, h14, hcol]
  have hbody : bindBody flags (args0 :: argsRest) env (ParseTargets flags.buildTargets) td =
      (.error e,
        BindAction.mkdir (filepathJoin [td, "matcha-ios"]) ::
        BindAction.mkdir (filepathDir (filepathJoin [filepathJoin [td, "matcha-ios"],
          "MatchaBridge", "MatchaBridge", "MatchaBridge.a"])) ::
        BindAction.writeFile (filepathJoin [td, "src", "iosbin", "main.go"]) ::
        (if flags.buildBinary then []
          else iosCopyActions env pkgs (filepathJoin [td, "matcha-ios"]) ++
            [BindAction.copyFile (filepathJoin [filepathJoin [td, "matcha-ios"],
                "MatchaBridge", "MatchaBridge", "matchaobjc.h"])
              (filepathJoin [cmdPath, "matchaforeign.h.support"]),
             BindAction.copyFile (filepathJoin [filepathJoin [td, "matcha-ios"],
                "MatchaBridge", "MatchaBridge", "matchago.h"])
              (filepathJoin [cmdPath, "matchago.h.support"])])) := by
    simp [bindBody, seqA, extCall, h2, h3, h4, h5, h6, h7, h8, hios]
  have hcmd : BindCmd flags (args0 :: argsRest) env =
      (.error e,
        BindAction.mkdir (filepathJoin [td, "matcha-ios"]) ::
        BindAction.mkdir (filepathDir (filepathJoin [filepathJoin [td, "matcha-ios"],
          "MatchaBridge", "MatchaBridge", "MatchaBridge.a"])) ::
        BindAction.writeFile (filepathJoin [td, "src", "iosbin", "main.go"]) ::
        ((if flags.buildBinary then []
          else iosCopyActions env pkgs (filepathJoin [td, "matcha-ios"]) ++
            [BindAction.copyFile (filepathJoin [filepathJoin [td, "matcha-ios"],
                "MatchaBridge", "MatchaBridge", "matchaobjc.h"])
              (filepathJoin [cmdPath, "matchaforeign.h.support"]),
             BindAction.copyFile (filepathJoin [filepathJoin [td, "matcha-ios"],
                "MatchaBridge", "MatchaBridge", "matchago.h"])
              (filepathJoin [cmdPath, "matchago.h.support"])]) ++
          (if flags.buildWork then [] else [BindAction.removeAll td]))) := by
    cases hw : flags.buildWork with
    | true => simp [BindCmd, h1, hbody, hw]
    | false => simp [BindCmd, h1, hbody, hw]
  refine ⟨hcmd, ?_, ?_⟩
  · intro L hmem
    rw [hcmd] at hmem
    cases hb : flags.buildBinary with
    | true =>
      cases hw : flags.buildWork with
      | true => simp [hb, hw] at hmem
      | false => simp [hb, hw] at hmem
    | false =>
      cases hw : flags.buildWork with
      | true =>
        simp [hb, hw] at hmem
        obtain ⟨d, s, heq⟩ := iosCopyActions_shape env pkgs _ _ hmem
        exact absurd heq (by simp)
      | false =>
        simp [hb, hw] at hmem
        obtain ⟨d, s, heq⟩ := iosCopyActions_shape env pkgs _ _ hmem
        exact absurd heq (by simp)
  · intro d s hmem
    rw [hcmd] at hmem
    cases hb : flags.buildBinary with
    | true =>
      cases hw : flags.buildWork with
      | true => simp [hb, hw] at hmem
      | false => simp [hb, hw] at hmem
    | false =>
      cases hw : flags.buildWork with
      | true =>
        simp [hb, hw] at hmem
        obtain ⟨d2, s2, heq⟩ := iosCopyActions_shape env pkgs _ _ hmem
        exact absurd heq (by simp)
      | false =>
        simp [hb, hw] at hmem
        obtain ⟨d2, s2, heq⟩ := iosCopyActions_shape env pkgs _ _ hmem
        exact absurd heq (by simp)

theorem bind_ios_first_error_witness :
    envIosFails.iosArrival =
      [⟨"arm", "/tmp/work/matcha-arm.a", none⟩] ++
        (⟨"arm64", "/tmp/work/matcha-arm64.a", some (Err.msg "ios build failed")⟩ : ArchPath) ::
          [] ∧
    (BindCmd flagsIos ["example.com/app"] envIosFails).fst =
      .error (Err.msg "ios build failed") ∧
    (∀ L, BindAction.runCmd L ∉ (BindCmd flagsIos ["example.com/app"] envIosFails).snd) := by
  have main := bind_ios_first_error flagsIos "example.com/app" [] envIosFails
    "/tmp/work" "/go/pkg/gomobile" "v1" "/home/dev/app" "/go/src/gomatcha.io/matcha/cmd"
    [⟨"app", "example.com/app", "/home/dev/app", []⟩]
    [["GOOS=darwin", "GOARCH=arm"], ["GOOS=darwin", "GOARCH=arm64"]]
    [⟨"arm", "/tmp/work/matcha-arm.a", none⟩] []
    ⟨"arm64", "/tmp/work/matcha-arm64.a", some (Err.msg "ios build failed")⟩
    (Err.msg "ios build failed")
    rfl rfl rfl rfl rfl rfl rfl rfl rfl rfl rfl rfl
    (fun hc => absurd hc (by decide)) rfl rfl (by decide) rfl (by decide)
  exact ⟨rfl, by rw [main.1], main.2.1⟩

/-- C2 amended: the merge step does not re-sort the collected results; it
passes them to the external merge tool in the order the concurrent results
arrived. In a fully successful run Bind invokes lipo with the archives listed
exactly in arrival order (interleaved with the per-architecture clang names),
and returns success. -/
theorem bind_merge_args_follow_arrival_order
    (flags : Flags) (args0 : String) (argsRest : List String) (env : BindEnv)
    (td gp ver cwd cmdPath : String) (pkgs : List Pkg)
    (envsL : List (List String))
    (h1 : env.newTmpDir = .ok td)
    (h2 : env.goMobilePath = .ok gp)
    (h3 : env.readFile (filepathJoin [gp, "version"]) = .ok ver)
    (h4 : env.goVersion = .ok ver)
    (h5 : env.getwd = .ok cwd)
    (h6 : env.importAll (env.pathClean args0 :: argsRest.map env.pathClean) cwd = .ok pkgs)
    (h7 : pkgs.find? (fun p => p.name == "main") = none)
    (h8 : env.packageDir "gomatcha.io/matcha/cmd" = .ok cmdPath)
    (h9 : memS "ios" (ParseTargets flags.buildTargets) = true)
    (h10 : env.mkdir (filepathJoin [td, "matcha-ios"]) = .ok ())
    (h11 : env.mkdir (filepathDir (filepathJoin [filepathJoin [td, "matcha-ios"],
      "MatchaBridge", "MatchaBridge", "MatchaBridge.a"])) = .ok ())
    (h12 : env.writeFile (filepathJoin [td, "src", "iosbin", "main.go"]) = .ok ())
    (h13 : flags.buildBinary = false →
      env.copyFile (filepathJoin [filepathJoin [td, "matcha-ios"],
          "MatchaBridge", "MatchaBridge", "matchaobjc.h"])
        (filepathJoin [cmdPath, "matchaforeign.h.support"]) = .ok () ∧
      env.copyFile (filepathJoin [filepathJoin [td, "matcha-ios"],
          "MatchaBridge", "MatchaBridge", "matchago.h"])
        (filepathJoin [cmdPath, "matchago.h.support"]) = .ok ())
    (h14 : iosEnvs (ParseTargets flags.buildTargets) env = .ok envsL)
    (h15 : ∀ x ∈ env.iosArrival, x.err = none)
    (h16 : env.iosArrival.length = envsL.length)
    (h17 : env.runCmd ("xcrun" :: "lipo" :: "-create" ::
      ((env.iosArrival.map (fun i => ["-arch", archClang i.arch, i.path])).flatten ++
        ["-o", filepathJoin [filepathJoin [td, "matcha-ios"],
          "MatchaBridge", "MatchaBridge", "MatchaBridge.a"]])) = .ok ())
    (h18 : flags.buildBinary = true →
      env.copyFile (filepathJoin [(if flags.buildO = "" then "Matcha-iOS" else flags.buildO),
          "ios", "MatchaBridge", "MatchaBridge", "MatchaBridge.a"])
        (filepathJoin [filepathJoin [td, "matcha-ios"],
          "MatchaBridge", "MatchaBridge", "MatchaBridge.a"]) = .ok ())
    (h19 : flags.buildBinary = false →
      env.removeAll (if flags.buildO = "" then "Matcha-iOS" else flags.buildO) = .ok () ∧
      env.copyDir (if flags.buildO = "" then "Matcha-iOS" else flags.buildO)
        (filepathJoin [td, "matcha-ios"]) = .ok ())
    (h20 : memS "android" (ParseTargets flags.buildTargets) = false) :
    BindAction.runCmd ("xcrun" :: "lipo" :: "-create" ::
        ((env.iosArrival.map (fun i => ["-arch", archClang i.arch, i.path])).flatten ++
          ["-o", filepathJoin [filepathJoin [td, "matcha-ios"],
            "MatchaBridge", "MatchaBridge", "MatchaBridge.a"]])) ∈
      (BindCmd flags (args0 :: argsRest) env).snd ∧
    (BindCmd flags (args0 :: argsRest) env).fst = .ok () := by
  have hcol : collectArchs envsL.length env.iosArrival = .ok env.iosArrival := by
    rw [← h16]
    exact collectArchs_ok env.iosArrival h15
  have hband : bindAndroid flags (args0 :: argsRest) env (ParseTargets flags.buildTargets)
      td cmdPath = (.ok (), []) := by
    simp [bindAndroid, okA, h20]
  cases hb : flags.buildBinary with
  | true =>
    have hcf := h18 hb
    have hios : bindIos flags (args0 :: argsRest) env (ParseTargets flags.buildTargets)
        td cmdPath pkgs =
        (.ok (),
          [BindAction.mkdir (filepathJoin [td, "matcha-ios"]),
           BindAction.mkdir (filepathDir (filepathJoin [filepathJoin [td, "matcha-ios"],
             "MatchaBridge", "MatchaBridge", "MatchaBridge.a"])),
           BindAction.writeFile (filepathJoin [td, "src", "iosbin", "main.go"]),
           BindAction.runCmd ("xcrun" :: "lipo" :: "-create" ::
             ((env.iosArrival.map (fun i => ["-arch", archClang i.arch, i.path])).flatten ++
               ["-o", filepathJoin [filepathJoin [td, "matcha-ios"],
                 "MatchaBridge", "MatchaBridge", "MatchaBridge.a"]])),
           BindAction.copyFile
             (filepathJoin [(if flags.buildO = "" then "Matcha-iOS" else flags.buildO),
               "ios", "MatchaBridge", "MatchaBridge", "MatchaBridge.a"])
             (filepathJoin [filepathJoin [td, "matcha-ios"],
               "MatchaBridge", "MatchaBridge", "MatchaBridge.a"])]) := by
      simp [bindIos, h9, seqA, doAct, extCall, okA, writeMainFile,
        h10, h11, h12, hb, h14, hcol, h17, hcf]
    have hbody : bindBody flags (args0 :: argsRest) env (ParseTargets flags.buildTargets) td =
        (.ok (),
          [BindAction.mkdir (filepathJoin [td, "matcha-ios"]),
           BindAction.mkdir (filepathDir (filepathJoin [filepathJoin [td, "matcha-ios"],
             "MatchaBridge", "MatchaBridge", "MatchaBridge.a"])),
           BindAction.writeFile (filepathJoin [td, "src", "iosbin", "main.go"]),
           BindAction.runCmd ("xcrun" :: "lipo" :: "-create" ::
             ((env.iosArrival.map (fun i => ["-arch", archClang i.arch, i.path])).flatten ++
               ["-o", filepathJoin [filepathJoin [td, "matcha-ios"],
                 "MatchaBridge", "MatchaBridge", "MatchaBridge.a"]])),
           BindAction.copyFile
             (filepathJoin [(if flags.buildO = "" then "Matcha-iOS" else flags.buildO),
               "ios", "MatchaBridge", "MatchaBridge", "MatchaBridge.a"])
             (filepathJoin [filepathJoin [td, "matcha-ios"],
               "MatchaBridge", "MatchaBridge", "MatchaBridge.a"])]) := by
      simp [bindBody, seqA, extCall, h2, h3, h4, h5, h6, h7, h8, hios, hband]
    cases hw : flags.buildWork with
    | true =>
      have hcmd : BindCmd flags (args0 :: argsRest) env =
          ((bindBody flags (args0 :: argsRest) env (ParseTargets flags.buildTargets) td).fst,
            (bindBody flags (args0 :: argsRest) env
              (ParseTargets flags.buildTargets) td).snd) := by
        simp [BindCmd, h1, hw]
      rw [hcmd, hbody]
      exact ⟨by simp, rfl⟩
    | false =>
      have hcmd : BindCmd flags (args0 :: argsRest) env =
          ((bindBody flags (args0 :: argsRest) env (ParseTargets flags.buildTargets) td).fst,
            (bindBody flags (args0 :: argsRest) env (ParseTargets flags.buildTargets) td).snd ++
              [BindAction.removeAll td]) := by
        simp [BindCmd, h1, hw]
      rw [hcmd, hbody]
      exact ⟨by simp, rfl⟩
  | false =>
    obtain ⟨hc1, hc2⟩ := h13 hb
    obtain ⟨hrm, hcd⟩ := h19 hb
    have hios : bindIos flags (args0 :: argsRest) env (ParseTargets flags.buildTargets)
        td cmdPath pkgs =
        (.ok (),
          BindAction.mkdir (filepathJoin [td, "matcha-ios"]) ::
          BindAction.mkdir (filepathDir (filepathJoin [filepathJoin [td, "matcha-ios"],
            "MatchaBridge", "MatchaBridge", "MatchaBridge.a"])) ::
          BindAction.writeFile (filepathJoin [td, "src", "iosbin", "main.go"]) ::
          (iosCopyActions env pkgs (filepathJoin [td, "matcha-ios"]) ++
            [BindAction.copyFile (filepathJoin [filepathJoin [td, "matcha-ios"],
                "MatchaBridge", "MatchaBridge", "matchaobjc.h"])
              (filepathJoin [cmdPath, "matchaforeign.h.support"]),
             BindAction.copyFile (filepathJoin [filepathJoin [td, "matcha-ios"],
                "MatchaBridge", "MatchaBridge", "matchago.h"])
              (filepathJoin [cmdPath, "matchago.h.support"]),
             BindAction.runCmd ("xcrun" :: "lipo" :: "-create" ::
               ((env.iosArrival.map (fun i => ["-arch", archClang i.arch, i.path])).flatten ++
                 ["-o", filepathJoin [filepathJoin [td, "matcha-ios"],
                   "MatchaBridge", "MatchaBridge", "MatchaBridge.a"]])),
             BindAction.removeAll (if flags.buildO = "" then "Matcha-iOS" else flags.buildO),
             BindAction.copyDir (if flags.buildO = "" then "Matcha-iOS" else flags.buildO)
               (filepathJoin [td, "matcha-ios"])])) := by
      simp [bindIos, h9, seqA, doAct, extCall, okA, writeMainFile, iosCopySupport,
        h10, h11, h12, hb, hc1, hc2, h14, hcol, h17, hrm, hcd]
    have hbody : bindBody flags (args0 :: argsRest) env (ParseTargets flags.buildTargets) td =
        (.ok (),
          BindAction.mkdir (filepathJoin [td, "matcha-ios"]) ::
          BindAction.mkdir (filepathDir (filepathJoin [filepathJoin [td, "matcha-ios"],
            "MatchaBridge", "MatchaBridge", "MatchaBridge.a"])) ::
          BindAction.writeFile (filepathJoin [td, "src", "iosbin", "main.go"]) ::
          (iosCopyActions env pkgs (filepathJoin [td, "matcha-ios"]) ++
            [BindAction.copyFile (filepathJoin [filepathJoin [td, "matcha-ios"],
                "MatchaBridge", "MatchaBridge", "matchaobjc.h"])
              (filepathJoin [cmdPath, "matchaforeign.h.support"]),
             BindAction.copyFile (filepathJoin [filepathJoin [td, "matcha-ios"],
                "MatchaBridge", "MatchaBridge", "matchago.h"])
              (filepathJoin [cmdPath, "matchago.h.support"]),
             BindAction.runCmd ("xcrun" :: "lipo" :: "-create" ::
               ((env.iosArrival.map (fun i => ["-arch", archClang i.arch, i.path])).flatten ++
                 ["-o", filepathJoin [filepathJoin [td, "matcha-ios"],
                   "MatchaBridge", "MatchaBridge", "MatchaBridge.a"]])),
             BindAction.removeAll (if flags.buildO = "" then "Matcha-iOS" else flags.buildO),
             BindAction.copyDir (if flags.buildO = "" then "Matcha-iOS" else flags.buildO)
               (filepathJoin [td, "matcha-ios"])])) := by
      simp [bindBody, seqA, extCall, h2, h3, h4, h5, h6, h7, h8, hios, hband]
    cases hw : flags.buildWork with
    | true =>
      have hcmd : BindCmd flags (args0 :: argsRest) env =
          ((bindBody flags (args0 :: argsRest) env (ParseTargets flags.buildTargets) td).fst,
            (bindBody flags (args0 :: argsRest) env
              (ParseTargets flags.buildTargets) td).snd) := by
        simp [BindCmd, h1, hw]
      rw [hcmd, hbody]
      exact ⟨by simp, rfl⟩
    | false =>
      have hcmd : BindCmd flags (args0 :: argsRest) env =
          ((bindBody flags (args0 :: argsRest) env (ParseTargets flags.buildTargets) td).fst,
            (bindBody flags (args0 :: argsRest) env (ParseTargets flags.buildTargets) td).snd ++
              [BindAction.removeAll td]) := by
        simp [BindCmd, h1, hw]
      rw [hcmd, hbody]
      exact ⟨by simp, rfl⟩

theorem bind_merge_args_follow_arrival_order_witness :
    (∀ x ∈ envOk.iosArrival, x.err = none) ∧
    BindAction.runCmd ("xcrun" :: "lipo" :: "-create" ::
        ((envOk.iosArrival.map (fun i => ["-arch", archClang i.arch, i.path])).flatten ++
          ["-o", filepathJoin [filepathJoin ["/tmp/work", "matcha-ios"],
            "MatchaBridge", "MatchaBridge", "MatchaBridge.a"]])) ∈
      (BindCmd flagsIos ["example.com/app"] envOk).snd ∧
    (BindCmd flagsIos ["example.com/app"] envOk).fst = .ok () := by
  have main := bind_merge_args_follow_arrival_order flagsIos "example.com/app" [] envOk
    "/tmp/work" "/go/pkg/gomobile" "v1" "/home/dev/app" "/go/src/gomatcha.io/matcha/cmd"
    [⟨"app", "example.com/app", "/home/dev/app", []⟩]
    [["GOOS=darwin", "GOARCH=arm"], ["GOOS=darwin", "GOARCH=arm64"]]
    rfl rfl rfl rfl rfl rfl rfl rfl rfl rfl rfl rfl
    (fun hc => absurd hc (by decide))
    rfl (by decide) rfl rfl
    (fun _ => rfl) (fun hc => absurd hc (by decide)) rfl
  exact ⟨by decide, main.1, main.2⟩
